import Mathlib

/-!
# Verification of the temperature-dashboard analytic core

Shallow embedding, over `ℚ`, of the analytic layer of the repository:
`calculate_stats` (src/stats.py), `compute_normal_band`,
`compute_forecast_line_ar2`, the deviation classification and the
auto-centering view logic of `update` (src/main.py).  External library
routines (`statistics.stdev`, `np.linalg.lstsq`) are passed as explicit
oracle parameters; everything else is translated directly from the source.
-/

/-! ## src/stats.py -/

/-- Result dictionary of `calculate_stats`. -/
structure Stats where
  mean : ℚ
  min : ℚ
  max : ℚ
  std : ℚ
  count : ℕ
deriving DecidableEq, Repr

/-- Python `min(xs)` on a nonempty list (0 on the empty list, unused there). -/
def listMin : List ℚ → ℚ
  | [] => 0
  | x :: xs => xs.foldl Min.min x

/-- Python `max(xs)` on a nonempty list (0 on the empty list, unused there). -/
def listMax : List ℚ → ℚ
  | [] => 0
  | x :: xs => xs.foldl Max.max x

/-- Embedding of `calculate_stats` (src/stats.py, lines 4-20).
`statistics.stdev` is an external library routine computing a square root;
it is passed as the oracle parameter `stdev`, consulted only when
`len(temperatures) > 1`, exactly as in the source. -/
def calculate_stats (stdev : List ℚ → ℚ) (temperatures : List ℚ) : Stats :=
  if temperatures = [] then
    { mean := 0, min := 0, max := 0, std := 0, count := 0 }
  else
    { mean := temperatures.sum / temperatures.length
      min := listMin temperatures
      max := listMax temperatures
      std := if 1 < temperatures.length then stdev temperatures else 0
      count := temperatures.length }

/-! ## Python slicing and numpy helpers -/

/-- Python `xs[-w:]`: the last `w` elements; the whole list when `w = 0`
(because `-0 == 0`) or when `w ≥ len(xs)`. -/
def takeLast {α : Type} (w : ℕ) (xs : List α) : List α :=
  if w = 0 then xs else xs.drop (xs.length - w)

/-- Embedding of `numpy.linspace start stop num` over `ℚ`: `num` evenly spaced points from
`start` to `stop` inclusive (`[start]` when `num = 1`, `[]` when `num = 0`). -/
def linspace (start stop : ℚ) (num : ℕ) : List ℚ :=
  if num ≤ 1 then List.replicate num start
  else (List.range num).map (fun i : ℕ => start + (stop - start) * (i : ℚ) / ((num : ℚ) - 1))

/-! ## src/main.py : AR(2) forecast -/

/-- The forward simulation loop of `compute_forecast_line_ar2`
(src/main.py, lines 107-110): starting from the last two real values,
repeatedly append `c + a1*y_tm1 + a2*y_tm2` and shift. -/
def ar2Iter (c a1 a2 : ℚ) : ℕ → ℚ → ℚ → List ℚ
  | 0, _, _ => []
  | n + 1, y_tm2, y_tm1 =>
    let y_next := c + a1 * y_tm1 + a2 * y_tm2
    y_next :: ar2Iter c a1 a2 n y_tm1 y_next

/-- Embedding of `compute_forecast_line_ar2` (src/main.py, lines 60-119).
The external least-squares solver `np.linalg.lstsq`, applied to the AR(2)
design matrix built from the window `temps_arr` (see `ar2Rows` /
`ar2Targets`), is passed as the oracle parameter `lstsq`; it receives the
window and returns `none` exactly when the library call raises
`np.linalg.LinAlgError`.  The Python function returns the tuple
`(None, None)` on every failure path, so the result type is a pair of
options, mirroring the source's return sites. -/
def compute_forecast_line_ar2 (lstsq : List ℚ → Option (ℚ × ℚ × ℚ))
    (times temps : List ℚ) (window : ℕ) (horizon_sec : ℚ) (n_future : ℕ) :
    Option (List ℚ) × Option (List ℚ) :=
  if times.length < 3 ∨ temps = [] then (none, none)
  else
    let temps_arr := takeLast window temps
    let times_window := takeLast window times
    let n := temps_arr.length
    if n < 3 then (none, none)
    else
      match lstsq temps_arr with
      | none => (none, none)
      | some (c, a1, a2) =>
        let y_tm2 := temps_arr.getD (n - 2) 0
        let y_tm1 := temps_arr.getD (n - 1) 0
        let forecast_values := y_tm1 :: ar2Iter c a1 a2 n_future y_tm2 y_tm1
        let t_last := times_window.getD (times_window.length - 1) 0
        let future_offsets := linspace 0 horizon_sec (n_future + 1)
        let future_times := future_offsets.map (fun x => t_last + x)
        (some future_times, some forecast_values)

/-- Rows of the AR(2) design matrix `X` built in src/main.py lines 86-91:
row `k` (for `k` in `[0, n-2)`) is `(1, y[k+1], y[k])`, predicting `y[k+2]`. -/
def ar2Rows (ys : List ℚ) : List (ℚ × ℚ × ℚ) :=
  (List.range (ys.length - 2)).map (fun k => (1, ys.getD (k + 1) 0, ys.getD k 0))

/-- Targets `Y = temps_arr[2:]` of the AR(2) fit (src/main.py line 86). -/
def ar2Targets (ys : List ℚ) : List ℚ := ys.drop 2

/-- Determinant of the 3×3 Gram matrix `XᵀX` of the AR(2) design.  It is zero
iff `X` is rank-deficient, i.e. iff the least-squares problem is singular. -/
def ar2GramDet (ys : List ℚ) : ℚ :=
  let rows := ar2Rows ys
  let m : ℚ := rows.length
  let su := (rows.map fun r => r.2.1).sum
  let sv := (rows.map fun r => r.2.2).sum
  let suu := (rows.map fun r => r.2.1 * r.2.1).sum
  let svv := (rows.map fun r => r.2.2 * r.2.2).sum
  let suv := (rows.map fun r => r.2.1 * r.2.2).sum
  m * (suu * svv - suv * suv) - su * (su * svv - suv * sv) + sv * (su * suv - suu * sv)

/-- Residual sum of squares `‖X·β - Y‖²` of a candidate coefficient vector
`β = (c, a1, a2)` for the AR(2) design; zero iff `β` solves the
least-squares problem exactly. -/
def ar2ResidualSq (ys : List ℚ) (beta : ℚ × ℚ × ℚ) : ℚ :=
  (((ar2Rows ys).zip (ar2Targets ys)).map
    (fun p => (beta.1 + beta.2.1 * p.1.2.1 + beta.2.2 * p.1.2.2 - p.2) ^ 2)).sum

/-! ## src/main.py : normal band -/

/-- Linear interpolation between order statistics at fractional rank `r` on an
already-sorted list: `s[i] + (r - i) * (s[i+1] - s[i])` with `i = ⌊r⌋`
(numpy's default interpolation). -/
def interpAt (s : List ℚ) (r : ℚ) : ℚ :=
  if (⌊r⌋).toNat + 1 < s.length then
    s.getD (⌊r⌋).toNat 0 +
      (r - ((⌊r⌋).toNat : ℚ)) * (s.getD ((⌊r⌋).toNat + 1) 0 - s.getD (⌊r⌋).toNat 0)
  else s.getD (⌊r⌋).toNat 0

/-- Embedding of `numpy.percentile xs p` with the default linear interpolation: sort and
interpolate at rank `p/100 * (n-1)`. -/
def percentile (p : ℚ) (xs : List ℚ) : ℚ :=
  let s := xs.insertionSort (· ≤ ·)
  interpAt s (p * ((s.length : ℚ) - 1) / 100)

/-- Embedding of `compute_normal_band` (src/main.py, lines 44-56): the
5th-95th percentile band of the reference values, `none` ("undefined") when
fewer than 20 values are available.  (The Python `temps is None` branch
collapses: a Lean list is never `None`.) -/
def compute_normal_band (temps : List ℚ) : Option (ℚ × ℚ) :=
  if temps.length < 20 then none
  else some (percentile 5 temps, percentile 95 temps)

/-! ## src/main.py : deviation classification (lines 297-327) -/

/-- Severity of a reading relative to the normal band, matching the four
status branches of `update`: inside the band, `diff ≤ 0.5`,
`0.5 < diff ≤ 2.0`, `diff > 2.0`. -/
inductive Severity
  | Ok
  | Slight
  | Moderate
  | Severe
deriving DecidableEq, Repr

/-- A defined normal band. -/
structure Band where
  low : ℚ
  high : ℚ
deriving DecidableEq, Repr

/-- Embedding of the per-device classification in `update`
(src/main.py, lines 299-321): inside the band is Ok with distance 0,
otherwise the distance outside the band selects the danger level
(`diff ≤ 0.5` slight, `diff ≤ 2.0` moderate, else severe). -/
def classify (band : Band) (v : ℚ) : Severity × ℚ :=
  if band.low ≤ v ∧ v ≤ band.high then (Severity.Ok, 0)
  else
    let diff := if v < band.low then band.low - v else v - band.high
    if diff ≤ 1/2 then (Severity.Slight, diff)
    else if diff ≤ 2 then (Severity.Moderate, diff)
    else (Severity.Severe, diff)

/-! ## src/main.py : view window and auto-centering -/

/-- Constant `WINDOW_PAST_SEC` (src/main.py line 13). -/
def WINDOW_PAST_SEC : ℚ := 600

/-- Constant `WINDOW_FUTURE_SEC` (src/main.py line 14). -/
def WINDOW_FUTURE_SEC : ℚ := 600

/-- Constant `FORECAST_WINDOW` (src/main.py line 16). -/
def FORECAST_WINDOW : ℕ := 64

/-- Constant `FUTURE_POINTS` (src/main.py line 17). -/
def FUTURE_POINTS : ℕ := 40

/-- The view-window state: the visible x-range of the plot together with the
module-global `auto_center` flag (src/main.py line 20). -/
structure ViewState where
  left : ℚ
  right : ℚ
  auto_center : Bool
deriving DecidableEq, Repr

/-- Embedding of `on_range_changed` (src/main.py, lines 150-155): any user pan/zoom
clears `auto_center`, unconditionally. -/
def on_range_changed (s : ViewState) : ViewState := { s with auto_center := false }

/-- The auto-centering step at the end of `update` (src/main.py,
lines 331-333): recenter on the latest timestamp only while `auto_center`
is still set. -/
def apply_auto_center (t_latest : ℚ) (s : ViewState) : ViewState :=
  if s.auto_center then
    { s with left := t_latest - WINDOW_PAST_SEC, right := t_latest + WINDOW_FUTURE_SEC }
  else s

/-- The two events that touch the view-window state: the user navigating the
view (`sigXRangeChanged` → `on_range_changed`) and a refresh observing a new
latest timestamp (the tail of `update`). -/
inductive ViewEvent
  | userNavigated
  | newLatest (t_latest : ℚ)

/-- One step of the view-window state machine. -/
def viewStep (s : ViewState) : ViewEvent → ViewState
  | ViewEvent.userNavigated => on_range_changed s
  | ViewEvent.newLatest t => apply_auto_center t s

/-- A session: fold a sequence of events over the view-window state. -/
def runEvents (s : ViewState) (evs : List ViewEvent) : ViewState :=
  evs.foldl viewStep s

/-! ## src/main.py : the refresh cycle `update` (lines 177-333) -/

/-- The per-tick frame produced by `update`, as consumed by the rendering
layer: a `none` curve is a cleared curve, `latest = none` means the NOW
marker is unset, `band = none` means the normal range is undefined. -/
structure Frame where
  curve1 : Option (List ℚ × List ℚ)
  curve2 : Option (List ℚ × List ℚ)
  curve3 : Option (List ℚ × List ℚ)
  forecast1 : Option (List ℚ × List ℚ)
  forecast2 : Option (List ℚ × List ℚ)
  forecast3 : Option (List ℚ × List ℚ)
  latest : Option ℚ
  band : Option (ℚ × ℚ)
  deviations : Option (List (Severity × ℚ))
  view : ViewState
deriving DecidableEq, Repr

/-- The per-device forecast branch of `update` (src/main.py, lines 240-280):
clear the forecast curve when the device has no data or the AR(2) forecast
is unavailable. -/
def fcLine (lstsq : List ℚ → Option (ℚ × ℚ × ℚ)) (times temps : List ℚ) :
    Option (List ℚ × List ℚ) :=
  if times = [] then none
  else
    match compute_forecast_line_ar2 lstsq times temps FORECAST_WINDOW
        WINDOW_FUTURE_SEC FUTURE_POINTS with
    | (some ts, some vs) => some (ts, vs)
    | _ => none

/-- Embedding of one refresh cycle `update` (src/main.py, lines 177-333) as a
pure function from the fetched per-device series and the previous view state
to a `Frame`.  The data fetch (lines 178-191) is the external collaborator;
its result is the argument lists.  Slicing follows the source: a device
participates iff its `times` array is nonempty; `latest_info` collects the
last (timestamp, value) pairs; the normal band is computed from the combined
device02+device03 values; `deviations` classifies each latest value against
the band when it is defined; the view is recentered on `t_latest` only while
`auto_center` is set. -/
def update (lstsq : List ℚ → Option (ℚ × ℚ × ℚ))
    (times1 temps1 times2 temps2 times3 temps3 : List ℚ) (s : ViewState) : Frame :=
  if times1 = [] ∧ times2 = [] ∧ times3 = [] then
    { curve1 := none, curve2 := none, curve3 := none
      forecast1 := none, forecast2 := none, forecast3 := none
      latest := none, band := none, deviations := none, view := s }
  else
    let latest_info : List (ℚ × ℚ) :=
      (if times1 ≠ [] then
        [(times1.getD (times1.length - 1) 0, temps1.getD (temps1.length - 1) 0)] else []) ++
      (if times2 ≠ [] then
        [(times2.getD (times2.length - 1) 0, temps2.getD (temps2.length - 1) 0)] else []) ++
      (if times3 ≠ [] then
        [(times3.getD (times3.length - 1) 0, temps3.getD (temps3.length - 1) 0)] else [])
    let t_latest := listMax (latest_info.map Prod.fst)
    let band := compute_normal_band (temps2 ++ temps3)
    { curve1 := if times1 ≠ [] then some (times1, temps1) else none
      curve2 := if times2 ≠ [] then some (times2, temps2) else none
      curve3 := if times3 ≠ [] then some (times3, temps3) else none
      forecast1 := fcLine lstsq times1 temps1
      forecast2 := fcLine lstsq times2 temps2
      forecast3 := fcLine lstsq times3 temps3
      latest := some t_latest
      band := band
      deviations := band.map (fun b => latest_info.map (fun p => classify ⟨b.1, b.2⟩ p.2))
      view := apply_auto_center t_latest s }

/-! ## Strategies specified but not implemented under src/ -/

/-- Python `==` on lists of numbers restricted to "all elements equal the
first"; used to state the LinearTrend degenerate-window condition. -/
def allEqual : List ℚ → Bool
  | [] => true
  | x :: xs => xs.all (· == x)

/-- Ordinary least-squares slope of `ys` against `xs` (the closed form
`Σ(x-x̄)(y-ȳ) / Σ(x-x̄)²`; the denominator is nonzero whenever the `xs` are
not all equal). -/
def olsSlope (xs ys : List ℚ) : ℚ :=
  let n : ℚ := xs.length
  let xbar := xs.sum / n
  let ybar := ys.sum / n
  let sxy := ((xs.zip ys).map (fun p => (p.1 - xbar) * (p.2 - ybar))).sum
  let sxx := (xs.map (fun x => (x - xbar) * (x - xbar))).sum
  sxy / sxx

/-- Modelled from the spec: the ConstantMean forecasting strategy (§4.2).
No implementation exists under src/ (the near-duplicate variant scripts are
not included; only the helper `calculate_stats` is).  Faithful to the spec's
words: forecast value = arithmetic mean of the last `window` values; future
timestamps spaced evenly over `[t_last, t_last + horizon]` in `n_future`
steps starting at `t_last + step`; requires ≥ 1 sample, "unavailable"
(`none`) when the series is empty. -/
def forecast_constant_mean (times temps : List ℚ) (window : ℕ)
    (horizon : ℚ) (n_future : ℕ) : Option (List ℚ × List ℚ) :=
  if temps = [] then none
  else
    let y := takeLast window temps
    let m := y.sum / (y.length : ℚ)
    let t_last := times.getD (times.length - 1) 0
    let step := horizon / (n_future : ℚ)
    some ((List.range n_future).map (fun k : ℕ => t_last + ((k : ℚ) + 1) * step),
          List.replicate n_future m)

/-- Modelled from the spec: the LinearTrend forecasting strategy (§4.2).
No implementation exists under src/ (only the helper
`calculate_trend_slope`, which is never called).  Faithful to the spec's
words: ordinary least-squares fit of value against `timestamp - t_last` over
the last `window` samples, shifted vertically through the last real sample;
future points generated at step `dt`; requires ≥ 2 samples with
non-identical timestamps in the window, otherwise "unavailable" (`none`). -/
def forecast_linear_trend (times temps : List ℚ) (window : ℕ) (dt : ℚ)
    (n_future : ℕ) : Option (List ℚ × List ℚ) :=
  let t := takeLast window times
  let y := takeLast window temps
  if t.length < 2 ∨ allEqual t then none
  else
    let t_last := t.getD (t.length - 1) 0
    let y_last := y.getD (y.length - 1) 0
    let slope := olsSlope (t.map (fun x => x - t_last)) y
    some ((List.range (n_future + 1)).map (fun k : ℕ => t_last + (k : ℚ) * dt),
          (List.range (n_future + 1)).map (fun k : ℕ => y_last + slope * ((k : ℚ) * dt)))

/-! ## Helper lemmas -/

theorem ar2Iter_length (c a1 a2 : ℚ) (n : ℕ) :
    ∀ y0 y1, (ar2Iter c a1 a2 n y0 y1).length = n := by
  induction n with
  | zero => intro _ _; rfl
  | succ n ih => intro y0 y1; simp [ar2Iter, ih]

theorem linspace_length (a b : ℚ) (num : ℕ) : (linspace a b num).length = num := by
  unfold linspace
  split
  · exact List.length_replicate ..
  · simp only [List.length_map, List.length_range]

theorem linspace_getD_zero (a b : ℚ) (num : ℕ) (h : 1 ≤ num) :
    (linspace a b num).getD 0 0 = a := by
  have hlen : 0 < (linspace a b num).length := by rw [linspace_length]; omega
  rw [List.getD_eq_getElem _ _ hlen]
  unfold linspace
  split
  · rw [List.getElem_replicate]
  · simp only [List.getElem_map, List.getElem_range]
    norm_num

theorem takeLast_getD_last (w : ℕ) (xs : List ℚ) (hxs : xs ≠ []) :
    (takeLast w xs).getD ((takeLast w xs).length - 1) 0 = xs.getD (xs.length - 1) 0 := by
  have hlen : 0 < xs.length := List.length_pos.mpr hxs
  unfold takeLast
  split
  · rfl
  · rename_i hw
    have hk : xs.length - w < xs.length := by omega
    have hdl : (xs.drop (xs.length - w)).length = xs.length - (xs.length - w) :=
      List.length_drop ..
    have hi : (xs.drop (xs.length - w)).length - 1 < (xs.drop (xs.length - w)).length := by
      omega
    rw [List.getD_eq_getElem _ _ hi, List.getD_eq_getElem _ _ (by omega : xs.length - 1 < xs.length)]
    rw [List.getElem_drop]
    congr 1
    omega

theorem viewStep_pinned (s : ViewState) (h : s.auto_center = false) (e : ViewEvent) :
    viewStep s e = s := by
  cases e with
  | userNavigated => cases s; simp_all [viewStep, on_range_changed]
  | newLatest t => simp [viewStep, apply_auto_center, h]

theorem runEvents_pinned (s : ViewState) (h : s.auto_center = false)
    (evs : List ViewEvent) : runEvents s evs = s := by
  induction evs with
  | nil => rfl
  | cons e evs ih =>
    show List.foldl viewStep (viewStep s e) evs = s
    rw [viewStep_pinned s h e]
    exact ih

/-- Claim C6: once the user navigates, `auto_center` is false in every
subsequent state and no later event changes the view window. -/
theorem C6_user_navigation_terminal (s : ViewState) (pre post : List ViewEvent) :
    (runEvents s (pre ++ ViewEvent.userNavigated :: post)).auto_center = false ∧
    runEvents s (pre ++ ViewEvent.userNavigated :: post)
      = runEvents s (pre ++ [ViewEvent.userNavigated]) := by
  have h1 : runEvents s (pre ++ ViewEvent.userNavigated :: post)
      = runEvents (on_range_changed (runEvents s pre)) post := by
    show List.foldl viewStep s (pre ++ ViewEvent.userNavigated :: post) = _
    rw [List.foldl_append, List.foldl_cons]
    rfl
  have h2 : runEvents (on_range_changed (runEvents s pre)) post
      = on_range_changed (runEvents s pre) := runEvents_pinned _ rfl post
  have h3 : runEvents s (pre ++ [ViewEvent.userNavigated])
      = on_range_changed (runEvents s pre) := by
    show List.foldl viewStep s (pre ++ [ViewEvent.userNavigated]) = _
    rw [List.foldl_append, List.foldl_cons]
    rfl
  rw [h1, h2, h3]
  exact ⟨rfl, rfl⟩

/-- Claim C10: `calculate_stats` is total on the empty list (all-zero result
dictionary with count 0) and on singleton lists (std 0, count 1, and
mean = min = max = the element), for any stdev oracle. -/
theorem C10_calculate_stats_total (stdev : List ℚ → ℚ) :
    calculate_stats stdev [] = { mean := 0, min := 0, max := 0, std := 0, count := 0 } ∧
    ∀ x : ℚ, calculate_stats stdev [x] =
      { mean := x, min := x, max := x, std := 0, count := 1 } := by
  refine ⟨rfl, fun x => ?_⟩
  simp [calculate_stats, listMin, listMax]

/-- Claim C8: when all three devices' series are empty, `update` returns the
"no data" frame: every curve cleared, band undefined, latest unset, and the
view window unchanged. -/
theorem C8_no_data_frame (lstsq : List ℚ → Option (ℚ × ℚ × ℚ))
    (times1 temps1 times2 temps2 times3 temps3 : List ℚ) (s : ViewState)
    (h1 : times1 = []) (h2 : times2 = []) (h3 : times3 = []) :
    update lstsq times1 temps1 times2 temps2 times3 temps3 s =
      { curve1 := none, curve2 := none, curve3 := none
        forecast1 := none, forecast2 := none, forecast3 := none
        latest := none, band := none, deviations := none, view := s } := by
  subst h1 h2 h3
  rfl

theorem C8_no_data_frame_witness :
    update (fun _ => none) [] [] [] [] [] [] ⟨0, 0, true⟩ =
      { curve1 := none, curve2 := none, curve3 := none
        forecast1 := none, forecast2 := none, forecast3 := none
        latest := none, band := none, deviations := none, view := ⟨0, 0, true⟩ } :=
  C8_no_data_frame (fun _ => none) [] [] [] [] [] [] ⟨0, 0, true⟩ rfl rfl rfl

/-- Claim C9: `compute_forecast_line_ar2` either fails with `(None, None)` or
returns two sequences that both have length exactly `n_future + 1`. -/
theorem C9_shape (lstsq : List ℚ → Option (ℚ × ℚ × ℚ)) (times temps : List ℚ)
    (window : ℕ) (h : ℚ) (nf : ℕ) :
    compute_forecast_line_ar2 lstsq times temps window h nf = (none, none) ∨
    ∃ ts vs, compute_forecast_line_ar2 lstsq times temps window h nf = (some ts, some vs) ∧
      ts.length = nf + 1 ∧ vs.length = nf + 1 := by
  unfold compute_forecast_line_ar2
  split
  · exact Or.inl rfl
  · simp only
    split
    · exact Or.inl rfl
    · rcases hls : lstsq (takeLast window temps) with _ | ⟨c, a1, a2⟩
      · exact Or.inl rfl
      · refine Or.inr ⟨_, _, rfl, ?_, ?_⟩
        · rw [List.length_map, linspace_length]
        · simp [ar2Iter_length]

/-- Claim C1: each strategy returns "unavailable" below its minimum sample
count: AR(2) for a series of fewer than 3 samples, ConstantMean for an empty
series, LinearTrend when the window lacks 2 samples with distinct
timestamps. -/
theorem C1_strategy_minimums :
    (∀ (lstsq : List ℚ → Option (ℚ × ℚ × ℚ)) (times temps : List ℚ)
        (window : ℕ) (h : ℚ) (nf : ℕ),
        times.length = temps.length → times.length < 3 →
        compute_forecast_line_ar2 lstsq times temps window h nf = (none, none)) ∧
    (∀ (times : List ℚ) (window : ℕ) (h : ℚ) (nf : ℕ),
        forecast_constant_mean times [] window h nf = none) ∧
    (∀ (times temps : List ℚ) (window : ℕ) (dt : ℚ) (nf : ℕ),
        (takeLast window times).length < 2 ∨ allEqual (takeLast window times) = true →
        forecast_linear_trend times temps window dt nf = none) := by
  refine ⟨?_, ?_, ?_⟩
  · intro lstsq times temps window h nf _ hlt
    unfold compute_forecast_line_ar2
    rw [if_pos (Or.inl hlt)]
  · intro times window h nf
    rfl
  · intro times temps window dt nf hdeg
    unfold forecast_linear_trend
    rcases hdeg with h1 | h2
    · rw [if_pos (Or.inl h1)]
    · rw [if_pos (Or.inr h2)]

theorem C1_strategy_minimums_witness :
    compute_forecast_line_ar2 (fun _ => some (0, 1, 0)) [0, 1] [7, 8] 64 600 40 = (none, none) ∧
    forecast_constant_mean [] [] 64 600 40 = none ∧
    forecast_linear_trend [0, 0, 0] [1, 2, 3] 64 10 40 = none :=
  ⟨C1_strategy_minimums.1 (fun _ => some (0, 1, 0)) [0, 1] [7, 8] 64 600 40 rfl (by decide),
   C1_strategy_minimums.2.1 [] 64 600 40,
   C1_strategy_minimums.2.2 [0, 0, 0] [1, 2, 3] 64 10 40 (Or.inr (by decide))⟩

/-- Claim C7 (amended): when the external least-squares call fails with
`LinAlgError` (the oracle returns `none`), the AR(2) forecast returns
`(None, None)` and no exception propagates.  (A merely rank-deficient design
does not raise: see `C7_counterexample`.) -/
theorem C7_lstsq_error_unavailable (lstsq : List ℚ → Option (ℚ × ℚ × ℚ))
    (times temps : List ℚ) (window : ℕ) (h : ℚ) (nf : ℕ)
    (herr : lstsq (takeLast window temps) = none) :
    compute_forecast_line_ar2 lstsq times temps window h nf = (none, none) := by
  unfold compute_forecast_line_ar2
  split
  · rfl
  · simp only
    split
    · rfl
    · rw [herr]

theorem C7_lstsq_error_unavailable_witness :
    compute_forecast_line_ar2 (fun _ => none) [0, 1, 2] [4, 5, 6] 64 600 40 = (none, none) :=
  C7_lstsq_error_unavailable (fun _ => none) [0, 1, 2] [4, 5, 6] 64 600 40 rfl

/-- Claim C7 counterexample: the window `[5, 5, 5]` (constant values) has a
rank-deficient AR(2) design — its Gram determinant is 0 — yet the forecast
is NOT "unavailable": `np.linalg.lstsq` does not raise on rank-deficient
input, it returns the minimum-norm least-squares solution, here
`(5/51, 25/51, 25/51)` (an exact solution: residual 0), and the function
returns a numeric forecast line. -/
theorem C7_counterexample :
    ar2GramDet [5, 5, 5] = 0 ∧
    ar2ResidualSq [5, 5, 5] (5/51, 25/51, 25/51) = 0 ∧
    (compute_forecast_line_ar2 (fun _ => some (5/51, 25/51, 25/51))
      [0, 1, 2] [5, 5, 5] 64 600 40).1 ≠ none := by
  refine ⟨?_, ?_, ?_⟩
  · simp [ar2GramDet, ar2Rows, List.range_succ]
  · simp [ar2ResidualSq, ar2Rows, ar2Targets, List.range_succ]
    norm_num
  · simp [compute_forecast_line_ar2, takeLast]

/-- Claim C2: whenever the AR(2) forecast is available, its first
(timestamp, value) pair is exactly the series' last real sample. -/
theorem C2_first_point_is_last_sample (lstsq : List ℚ → Option (ℚ × ℚ × ℚ))
    (times temps : List ℚ) (window : ℕ) (h : ℚ) (nf : ℕ) (ts vs : List ℚ)
    (hres : compute_forecast_line_ar2 lstsq times temps window h nf = (some ts, some vs)) :
    ts.getD 0 0 = times.getD (times.length - 1) 0 ∧
    vs.getD 0 0 = temps.getD (temps.length - 1) 0 := by
  unfold compute_forecast_line_ar2 at hres
  split at hres
  · simp at hres
  · rename_i hcond
    push_neg at hcond
    obtain ⟨hlen3, htne⟩ := hcond
    simp only at hres
    split at hres
    · simp at hres
    · rcases hls : lstsq (takeLast window temps) with _ | ⟨c, a1, a2⟩
      · rw [hls] at hres; simp at hres
      · rw [hls] at hres
        simp only [Prod.mk.injEq, Option.some.injEq] at hres
        obtain ⟨hts, hvs⟩ := hres
        have htimesne : times ≠ [] := by
          intro hnil
          rw [hnil] at hlen3
          simp at hlen3
        constructor
        · rw [← hts]
          have hlin : 0 < (linspace 0 h (nf + 1)).length := by
            rw [linspace_length]; omega
          have hmaplen : 0 < ((linspace 0 h (nf + 1)).map
              (fun x => (takeLast window times).getD ((takeLast window times).length - 1) 0 + x)).length := by
            rw [List.length_map]; exact hlin
          rw [List.getD_eq_getElem _ _ hmaplen, List.getElem_map,
            ← List.getD_eq_getElem _ (0 : ℚ) hlin, linspace_getD_zero _ _ _ (by omega)]
          rw [add_zero]
          exact takeLast_getD_last window times htimesne
        · rw [← hvs]
          exact takeLast_getD_last window temps htne


theorem C2_first_point_is_last_sample_witness :
    ([(20 : ℚ), 30, 40, 50].getD 0 0 = [(0 : ℚ), 5, 10, 15, 20].getD ([(0 : ℚ), 5, 10, 15, 20].length - 1) 0) ∧
    ([(103 : ℚ)/10, 103/10, 103/10, 103/10].getD 0 0
      = [(10 : ℚ), 51/5, 101/10, 52/5, 103/10].getD ([(10 : ℚ), 51/5, 101/10, 52/5, 103/10].length - 1) 0) :=
  C2_first_point_is_last_sample (fun _ => some (0, 1, 0))
    [0, 5, 10, 15, 20] [10, 51/5, 101/10, 52/5, 103/10] 5 30 3
    [20, 30, 40, 50] [103/10, 103/10, 103/10, 103/10]
    (by norm_num [compute_forecast_line_ar2, takeLast, linspace, ar2Iter, List.range_succ]
        exact fun h => absurd h (by simp))

/-- Claim C4: classification against a band with `low ≤ high` is total: `Ok`
with distance 0 exactly inside the band (inclusive); outside, the distance is
the gap to the violated bound, strictly positive, and the severity follows
the 0.5 / 2.0 thresholds. -/
theorem C4_classify_total (b : Band) (hb : b.low ≤ b.high) (v : ℚ) :
    (classify b v = (Severity.Ok, 0) ↔ b.low ≤ v ∧ v ≤ b.high) ∧
    (¬(b.low ≤ v ∧ v ≤ b.high) →
      (classify b v).2 = (if v < b.low then b.low - v else v - b.high) ∧
      0 < (classify b v).2 ∧
      (classify b v).1 =
        (if (if v < b.low then b.low - v else v - b.high) ≤ 1/2 then Severity.Slight
         else if (if v < b.low then b.low - v else v - b.high) ≤ 2 then Severity.Moderate
         else Severity.Severe)) := by
  by_cases hin : b.low ≤ v ∧ v ≤ b.high
  · constructor
    · simp [classify, hin]
    · intro hc
      exact absurd hin hc
  · have hdpos : 0 < (if v < b.low then b.low - v else v - b.high) := by
      rcases lt_or_ge v b.low with hlt | hge
      · rw [if_pos hlt]; linarith
      · rw [if_neg (not_lt.mpr hge)]
        push_neg at hin
        have := hin hge
        linarith
    have key : classify b v =
        (if (if v < b.low then b.low - v else v - b.high) ≤ 1/2 then
          (Severity.Slight, if v < b.low then b.low - v else v - b.high)
         else if (if v < b.low then b.low - v else v - b.high) ≤ 2 then
          (Severity.Moderate, if v < b.low then b.low - v else v - b.high)
         else (Severity.Severe, if v < b.low then b.low - v else v - b.high)) := by
      unfold classify
      rw [if_neg hin]
    rw [key]
    by_cases h1 : (if v < b.low then b.low - v else v - b.high) ≤ 1/2
    · rw [if_pos h1, if_pos h1]
      exact ⟨⟨fun hok => by simp at hok, fun hc => absurd hc hin⟩,
        fun _ => ⟨rfl, hdpos, rfl⟩⟩
    · by_cases h2 : (if v < b.low then b.low - v else v - b.high) ≤ 2
      · rw [if_neg h1, if_pos h2, if_neg h1, if_pos h2]
        exact ⟨⟨fun hok => by simp at hok, fun hc => absurd hc hin⟩,
          fun _ => ⟨rfl, hdpos, rfl⟩⟩
      · rw [if_neg h1, if_neg h2, if_neg h1, if_neg h2]
        exact ⟨⟨fun hok => by simp at hok, fun hc => absurd hc hin⟩,
          fun _ => ⟨rfl, hdpos, rfl⟩⟩

theorem C4_classify_total_witness :
    (Band.mk 0 10).low ≤ (Band.mk 0 10).high ∧
    ((classify (Band.mk 0 10) 11 = (Severity.Ok, 0) ↔
        (Band.mk 0 10).low ≤ 11 ∧ (11 : ℚ) ≤ (Band.mk 0 10).high) ∧
     (¬((Band.mk 0 10).low ≤ 11 ∧ (11 : ℚ) ≤ (Band.mk 0 10).high) →
       (classify (Band.mk 0 10) 11).2 =
         (if (11 : ℚ) < (Band.mk 0 10).low then (Band.mk 0 10).low - 11
          else 11 - (Band.mk 0 10).high) ∧
       0 < (classify (Band.mk 0 10) 11).2 ∧
       (classify (Band.mk 0 10) 11).1 =
         (if (if (11 : ℚ) < (Band.mk 0 10).low then (Band.mk 0 10).low - 11
              else 11 - (Band.mk 0 10).high) ≤ 1/2 then Severity.Slight
          else if (if (11 : ℚ) < (Band.mk 0 10).low then (Band.mk 0 10).low - 11
              else 11 - (Band.mk 0 10).high) ≤ 2 then Severity.Moderate
          else Severity.Severe))) :=
  ⟨by norm_num, C4_classify_total (Band.mk 0 10) (by norm_num) 11⟩

theorem ar2Iter_getD_zero (c a1 a2 : ℚ) (n : ℕ) (y0 y1 : ℚ) (h : 0 < n) :
    (ar2Iter c a1 a2 n y0 y1).getD 0 0 = c + a1 * y1 + a2 * y0 := by
  cases n with
  | zero => omega
  | succ n => rfl

theorem ar2Iter_getD_succ (c a1 a2 : ℚ) :
    ∀ (n : ℕ) (y0 y1 : ℚ) (i : ℕ), i + 1 < n →
      (ar2Iter c a1 a2 n y0 y1).getD (i + 1) 0 =
        c + a1 * (ar2Iter c a1 a2 n y0 y1).getD i 0 +
          a2 * ((y1 :: ar2Iter c a1 a2 n y0 y1).getD i 0) := by
  intro n
  induction n with
  | zero => intro y0 y1 i hi; omega
  | succ n ih =>
    intro y0 y1 i hi
    show (ar2Iter c a1 a2 (n + 1) y0 y1).getD (i + 1) 0 = _
    cases i with
    | zero =>
      have hn : 0 < n := by omega
      simp only [ar2Iter, List.getD_cons_succ, List.getD_cons_zero]
      exact ar2Iter_getD_zero c a1 a2 n y1 _ hn
    | succ k =>
      have hk : k + 1 < n := by omega
      simp only [ar2Iter, List.getD_cons_succ]
      exact ih y1 _ k hk

theorem linspace_getD (a b : ℚ) (num : ℕ) (i : ℕ) (h2 : 2 ≤ num) (hi : i < num) :
    (linspace a b num).getD i 0 = a + (b - a) * (i : ℚ) / ((num : ℚ) - 1) := by
  have hlen : i < (linspace a b num).length := by rw [linspace_length]; exact hi
  rw [List.getD_eq_getElem _ _ hlen]
  unfold linspace
  split
  · omega
  · simp only [List.getElem_map, List.getElem_range]

/-- Claim C3: when the AR(2) forecast is available with fitted coefficients
`(c, a1, a2)`, the value sequence starts at the last real value, continues
with `c + a1*y[-1] + a2*y[-2]`, and obeys the second-order recursion with no
clamping; the timestamps are the last real timestamp plus `n_future + 1`
evenly spaced offsets covering `[0, horizon]`, strictly increasing for a
positive horizon. -/
theorem C3_ar2_recursion (lstsq : List ℚ → Option (ℚ × ℚ × ℚ))
    (times temps : List ℚ) (window : ℕ) (h : ℚ) (nf : ℕ) (c a1 a2 : ℚ)
    (ts vs : List ℚ)
    (hcoef : lstsq (takeLast window temps) = some (c, a1, a2))
    (hres : compute_forecast_line_ar2 lstsq times temps window h nf = (some ts, some vs)) :
    ts.length = nf + 1 ∧ vs.length = nf + 1 ∧
    vs.getD 0 0 = (takeLast window temps).getD ((takeLast window temps).length - 1) 0 ∧
    (1 ≤ nf → vs.getD 1 0 =
      c + a1 * (takeLast window temps).getD ((takeLast window temps).length - 1) 0
        + a2 * (takeLast window temps).getD ((takeLast window temps).length - 2) 0) ∧
    (∀ j : ℕ, 1 ≤ j → j + 1 ≤ nf →
      vs.getD (j + 1) 0 = c + a1 * vs.getD j 0 + a2 * vs.getD (j - 1) 0) ∧
    (1 ≤ nf → ∀ i : ℕ, i ≤ nf →
      ts.getD i 0 = times.getD (times.length - 1) 0 + (i : ℚ) * h / (nf : ℚ)) ∧
    (0 < h → ∀ i j : ℕ, i < j → j ≤ nf → ts.getD i 0 < ts.getD j 0) := by
  unfold compute_forecast_line_ar2 at hres
  split at hres
  · simp at hres
  · rename_i hcond
    push_neg at hcond
    obtain ⟨hlen3, htne⟩ := hcond
    simp only at hres
    split at hres
    · simp at hres
    · rename_i hn3
      rw [hcoef] at hres
      simp only [Prod.mk.injEq, Option.some.injEq] at hres
      obtain ⟨hts, hvs⟩ := hres
      have htimesne : times ≠ [] := by
        intro hnil
        rw [hnil] at hlen3
        simp at hlen3
      have htslen : ts.length = nf + 1 := by
        rw [← hts, List.length_map, linspace_length]
      have hvslen : vs.length = nf + 1 := by
        rw [← hvs]
        simp [ar2Iter_length]
      have htsformula : 1 ≤ nf → ∀ i : ℕ, i ≤ nf →
          ts.getD i 0 = times.getD (times.length - 1) 0 + (i : ℚ) * h / (nf : ℚ) := by
        intro hnf1 i hile
        have hilt : i < (linspace 0 h (nf + 1)).length := by
          rw [linspace_length]; omega
        rw [← hts, List.getD_eq_getElem _ _ (by rw [List.length_map]; rw [linspace_length]; omega),
          List.getElem_map, ← List.getD_eq_getElem _ (0 : ℚ) hilt,
          linspace_getD 0 h (nf + 1) i (by omega) (by omega),
          takeLast_getD_last window times htimesne]
        push_cast
        ring
      refine ⟨htslen, hvslen, ?_, ?_, ?_, htsformula, ?_⟩
      · rw [← hvs]
        rfl
      · intro hnf1
        rw [← hvs]
        rw [List.getD_cons_succ]
        exact ar2Iter_getD_zero c a1 a2 nf _ _ (by omega)
      · intro j hj1 hjnf
        obtain ⟨k, rfl⟩ : ∃ k, j = k + 1 := ⟨j - 1, by omega⟩
        rw [← hvs]
        simp only [List.getD_cons_succ, Nat.add_sub_cancel]
        exact ar2Iter_getD_succ c a1 a2 nf _ _ k (by omega)
      · intro hh i j hij hjnf
        have hnf1 : 1 ≤ nf := by omega
        rw [htsformula hnf1 i (by omega), htsformula hnf1 j hjnf]
        have hnfpos : (0 : ℚ) < (nf : ℚ) := by exact_mod_cast hnf1
        have hstep : (i : ℚ) * h / (nf : ℚ) < (j : ℚ) * h / (nf : ℚ) := by
          apply div_lt_div_of_pos_right ?_ hnfpos
          have hcast : (i : ℚ) < (j : ℚ) := by exact_mod_cast hij
          exact mul_lt_mul_of_pos_right hcast hh
        linarith

theorem C3_ar2_recursion_witness :
    [(2 : ℚ), 7, 12].length = 2 + 1 ∧ [(3 : ℚ), 3, 3].length = 2 + 1 ∧
    [(3 : ℚ), 3, 3].getD 0 0
      = (takeLast 3 [(1 : ℚ), 2, 3]).getD ((takeLast 3 [(1 : ℚ), 2, 3]).length - 1) 0 ∧
    (1 ≤ 2 → [(3 : ℚ), 3, 3].getD 1 0 =
      0 + 1 * (takeLast 3 [(1 : ℚ), 2, 3]).getD ((takeLast 3 [(1 : ℚ), 2, 3]).length - 1) 0
        + 0 * (takeLast 3 [(1 : ℚ), 2, 3]).getD ((takeLast 3 [(1 : ℚ), 2, 3]).length - 2) 0) ∧
    (∀ j : ℕ, 1 ≤ j → j + 1 ≤ 2 →
      [(3 : ℚ), 3, 3].getD (j + 1) 0
        = 0 + 1 * [(3 : ℚ), 3, 3].getD j 0 + 0 * [(3 : ℚ), 3, 3].getD (j - 1) 0) ∧
    (1 ≤ 2 → ∀ i : ℕ, i ≤ 2 →
      [(2 : ℚ), 7, 12].getD i 0
        = [(0 : ℚ), 1, 2].getD ([(0 : ℚ), 1, 2].length - 1) 0 + (i : ℚ) * 10 / ((2 : ℕ) : ℚ)) ∧
    ((0 : ℚ) < 10 → ∀ i j : ℕ, i < j → j ≤ 2 →
      [(2 : ℚ), 7, 12].getD i 0 < [(2 : ℚ), 7, 12].getD j 0) :=
  C3_ar2_recursion (fun _ => some (0, 1, 0)) [0, 1, 2] [1, 2, 3] 3 10 2 0 1 0
    [2, 7, 12] [3, 3, 3] rfl
    (by norm_num [compute_forecast_line_ar2, takeLast, linspace, ar2Iter, List.range_succ]
        exact fun hx => absurd hx (by simp))

theorem sorted_getD_mono (s : List ℚ) (hs : List.Sorted (· ≤ ·) s) {i j : ℕ}
    (hij : i ≤ j) (hj : j < s.length) : s.getD i 0 ≤ s.getD j 0 := by
  have hi : i < s.length := lt_of_le_of_lt hij hj
  rw [List.getD_eq_getElem _ _ hi, List.getD_eq_getElem _ _ hj]
  rcases eq_or_lt_of_le hij with rfl | hlt
  · exact le_refl _
  · have := hs.rel_get_of_lt (a := ⟨i, hi⟩) (b := ⟨j, hj⟩) hlt
    simpa using this

theorem interpAt_mono (s : List ℚ) (hs : List.Sorted (· ≤ ·) s) (r r' : ℚ)
    (h0 : 0 ≤ r) (hrr : r ≤ r') (hub : r' ≤ (s.length : ℚ) - 1) :
    interpAt s r ≤ interpAt s r' := by
  have h0' : 0 ≤ r' := le_trans h0 hrr
  have hflr0 : 0 ≤ ⌊r⌋ := Int.floor_nonneg.mpr h0
  have hflr0' : 0 ≤ ⌊r'⌋ := Int.floor_nonneg.mpr h0'
  have hicast : (((⌊r⌋).toNat : ℕ) : ℚ) = ((⌊r⌋ : ℤ) : ℚ) := by
    exact_mod_cast congrArg (fun z : ℤ => (z : ℚ)) (Int.toNat_of_nonneg hflr0)
  have hicast' : (((⌊r'⌋).toNat : ℕ) : ℚ) = ((⌊r'⌋ : ℤ) : ℚ) := by
    exact_mod_cast congrArg (fun z : ℤ => (z : ℚ)) (Int.toNat_of_nonneg hflr0')
  have hfle : ((⌊r⌋ : ℤ) : ℚ) ≤ r := Int.floor_le r
  have hflt : r < ((⌊r⌋ : ℤ) : ℚ) + 1 := Int.lt_floor_add_one r
  have hfle' : ((⌊r'⌋ : ℤ) : ℚ) ≤ r' := Int.floor_le r'
  have hii' : (⌊r⌋).toNat ≤ (⌊r'⌋).toNat :=
    Int.toNat_le_toNat (Int.floor_le_floor hrr)
  have hlen1 : (1 : ℚ) ≤ (s.length : ℚ) := by linarith
  have hi'lt : (⌊r'⌋).toNat < s.length := by
    have : (((⌊r'⌋).toNat : ℕ) : ℚ) ≤ (s.length : ℚ) - 1 := by
      rw [hicast']; linarith
    have h2 : (((⌊r'⌋).toNat : ℕ) : ℚ) < (s.length : ℚ) := by linarith
    exact_mod_cast h2
  unfold interpAt
  rcases eq_or_lt_of_le hii' with heq | hlt2
  · rw [← heq]
    split
    · rename_i hbr
      have hd : s.getD (⌊r⌋).toNat 0 ≤ s.getD ((⌊r⌋).toNat + 1) 0 :=
        sorted_getD_mono s hs (Nat.le_succ _) hbr
      have hfr : r - (((⌊r⌋).toNat : ℕ) : ℚ) ≤ r' - (((⌊r⌋).toNat : ℕ) : ℚ) := by linarith
      have := mul_le_mul_of_nonneg_right hfr (by linarith : (0 : ℚ) ≤ s.getD ((⌊r⌋).toNat + 1) 0 - s.getD (⌊r⌋).toNat 0)
      rw [heq]
      rw [← heq]
      linarith
    · exact le_refl _
  · -- ⌊r⌋.toNat < ⌊r'⌋.toNat
    have hb1 : (⌊r⌋).toNat + 1 < s.length := by omega
    have hstep1 : interpAt s r ≤ s.getD ((⌊r⌋).toNat + 1) 0 := by
      unfold interpAt
      rw [if_pos hb1]
      have hd : s.getD (⌊r⌋).toNat 0 ≤ s.getD ((⌊r⌋).toNat + 1) 0 :=
        sorted_getD_mono s hs (Nat.le_succ _) hb1
      have hf1 : r - (((⌊r⌋).toNat : ℕ) : ℚ) ≤ 1 := by rw [hicast]; linarith
      have := mul_le_mul_of_nonneg_right hf1 (by linarith : (0 : ℚ) ≤ s.getD ((⌊r⌋).toNat + 1) 0 - s.getD (⌊r⌋).toNat 0)
      linarith
    have hstep2 : s.getD ((⌊r⌋).toNat + 1) 0 ≤ s.getD (⌊r'⌋).toNat 0 :=
      sorted_getD_mono s hs (by omega) hi'lt
    have hstep3 : s.getD (⌊r'⌋).toNat 0 ≤ interpAt s r' := by
      unfold interpAt
      split
      · rename_i hbr'
        have hd : s.getD (⌊r'⌋).toNat 0 ≤ s.getD ((⌊r'⌋).toNat + 1) 0 :=
          sorted_getD_mono s hs (Nat.le_succ _) hbr'
        have hf0 : 0 ≤ r' - (((⌊r'⌋).toNat : ℕ) : ℚ) := by rw [hicast']; linarith
        have := mul_nonneg hf0 (by linarith : (0 : ℚ) ≤ s.getD ((⌊r'⌋).toNat + 1) 0 - s.getD (⌊r'⌋).toNat 0)
        linarith
      · exact le_refl _
    calc interpAt s r ≤ s.getD ((⌊r⌋).toNat + 1) 0 := hstep1
      _ ≤ s.getD (⌊r'⌋).toNat 0 := hstep2
      _ ≤ interpAt s r' := hstep3

theorem percentile_mono (xs : List ℚ) (hxs : xs ≠ []) {p q : ℚ}
    (hp : 0 ≤ p) (hpq : p ≤ q) (hq : q ≤ 100) :
    percentile p xs ≤ percentile q xs := by
  unfold percentile
  have hsorted : List.Sorted (· ≤ ·) (xs.insertionSort (· ≤ ·)) :=
    List.sorted_insertionSort _ _
  have hlen : 0 < (xs.insertionSort (· ≤ ·)).length := by
    rw [List.length_insertionSort]
    exact List.length_pos.mpr hxs
  have hlen1 : (1 : ℚ) ≤ ((xs.insertionSort (· ≤ ·)).length : ℚ) := by exact_mod_cast hlen
  have hnm1 : (0 : ℚ) ≤ ((xs.insertionSort (· ≤ ·)).length : ℚ) - 1 := by linarith
  apply interpAt_mono _ hsorted
  · positivity
  · gcongr
  · rw [div_le_iff₀ (by norm_num : (0 : ℚ) < 100)]
    nlinarith

/-- Claim C5: `compute_normal_band` is undefined below 20 reference values;
with at least 20 it is the [5th percentile, 95th percentile] band (linear
interpolation between order statistics), and every returned band satisfies
`low ≤ high`. -/
theorem C5_band_percentiles (temps : List ℚ) :
    (temps.length < 20 → compute_normal_band temps = none) ∧
    (20 ≤ temps.length → compute_normal_band temps =
      some (percentile 5 temps, percentile 95 temps)) ∧
    (∀ lo hi : ℚ, compute_normal_band temps = some (lo, hi) → lo ≤ hi) := by
  refine ⟨?_, ?_, ?_⟩
  · intro hlt
    unfold compute_normal_band
    rw [if_pos hlt]
  · intro hge
    unfold compute_normal_band
    rw [if_neg (by omega)]
  · intro lo hi hsome
    unfold compute_normal_band at hsome
    split at hsome
    · simp at hsome
    · rename_i hge
      simp only [Option.some.injEq, Prod.mk.injEq] at hsome
      obtain ⟨hlo, hhi⟩ := hsome
      rw [← hlo, ← hhi]
      have hne : temps ≠ [] := by
        intro hnil
        rw [hnil] at hge
        simp at hge
      exact percentile_mono temps hne (by norm_num) (by norm_num) (by norm_num)

theorem C5_band_percentiles_witness :
    compute_normal_band [] = none ∧
    compute_normal_band [0, 1, 2, 3, 4, 5, 6, 7, 8, 9, 10, 11, 12, 13, 14, 15, 16, 17, 18, 19]
      = some (percentile 5 [0, 1, 2, 3, 4, 5, 6, 7, 8, 9, 10, 11, 12, 13, 14, 15, 16, 17, 18, 19],
              percentile 95 [0, 1, 2, 3, 4, 5, 6, 7, 8, 9, 10, 11, 12, 13, 14, 15, 16, 17, 18, 19]) ∧
    (19/20 : ℚ) ≤ 361/20 :=
  ⟨(C5_band_percentiles []).1 (by norm_num),
   (C5_band_percentiles [0, 1, 2, 3, 4, 5, 6, 7, 8, 9, 10, 11, 12, 13, 14, 15, 16, 17, 18, 19]).2.1
     (by norm_num),
   (C5_band_percentiles [0, 1, 2, 3, 4, 5, 6, 7, 8, 9, 10, 11, 12, 13, 14, 15, 16, 17, 18, 19]).2.2
     (19/20) (361/20)
     (by norm_num [compute_normal_band, percentile, interpAt, List.insertionSort, List.orderedInsert]
         simp
         norm_num)⟩
